import Mathlib

/-!
Verification of the Hy_Grid_bot reconciliation core against its specification.

The Python sources (`risk.py`, `strategy.py`, `storage.py`, `main.py`) are
shallowly embedded below: floats become exact rationals (`ℚ`), Python `None`
becomes `Option`, Python dictionaries with a fixed key set become structures
(a key that may be absent is an `Option` field), exchange calls become an
explicit oracle record passed to each step, and exceptions become `Except`.
-/

/-! ## Embedding of `risk.py` -/

/-- Embeds `position_size_spot` of `risk.py`: base-asset size so that
`(entry - stop) * size ≈ equity * risk`.  Mirrors the source line by line:
`dist = abs(entry - stop)`; `if dist <= 0: return 0.0`;
`risk_usd = max(equity_usd * risk_per_trade, 0)`; `size = risk_usd / dist`;
`return max(0.0, size)`. -/
def position_size_spot (equity_usd entry stop risk_per_trade : ℚ) : ℚ :=
  let dist := |entry - stop|
  if dist ≤ 0 then 0
  else
    let risk_usd := max (equity_usd * risk_per_trade) 0
    let size := risk_usd / dist
    max 0 size

/-- Embeds `update_trailing_stop` of `risk.py`: `None` new trail keeps the current one,
`None` current trail adopts the new one, otherwise `max` for longs and
`min` for shorts. -/
def update_trailing_stop (current_trail new_trail : Option ℚ) (side : String) :
    Option ℚ :=
  match new_trail with
  | none => current_trail
  | some n =>
    match current_trail with
    | none => some n
    | some c => if side = "long" then some (max c n) else some (min c n)

/-! ## Embedding of `strategy.py` (regime detection) -/

/-- The fields of `StrategyConfig` that `detect_regime` consumes. -/
structure StrategyConfig where
  mode : String
  adx_trend : ℚ
  bb_width_max : ℚ
deriving Repr, DecidableEq

/-- The indicator columns of the last data-frame row that `detect_regime`
reads (`df.iloc[-1]`). -/
structure IndLast where
  adx : ℚ
  close : ℚ
  ema_slow : ℚ
  bb_width : ℚ
deriving Repr, DecidableEq

/-- Embeds `detect_regime` of `strategy.py`.  `lastRow = none` models an empty frame
(`df.empty`); the source returns `"trend"` there before looking at
`cfg.mode`.  Otherwise: forced mode, then the auto rules. -/
def detect_regime (lastRow : Option IndLast) (cfg : StrategyConfig) : String :=
  match lastRow with
  | none => "trend"
  | some l =>
    if cfg.mode = "trend" ∨ cfg.mode = "grid" then cfg.mode
    else if l.adx ≥ cfg.adx_trend ∧ l.close > l.ema_slow then "trend"
    else if l.bb_width ≤ cfg.bb_width_max ∧ l.adx < cfg.adx_trend then "grid"
    else "trend"

/-! ## Trade ledger (`main.py`, `log_new_trade` / `close_trade_by_symbol`) -/

/-- One record of `state[“trades”]`.  Field names follow the dictionary keys
written by `log_new_trade`. -/
structure Trade where
  id : String
  symbol : String
  mode : String
  side : String
  entry : ℚ
  stop : ℚ
  size : ℚ
  risk_per_unit : ℚ
  «open» : Bool
  exit : Option ℚ
  pnl : ℚ
  R : ℚ
deriving Repr, DecidableEq

/-- The dictionary appended by `main.py`, `log_new_trade` (with
`risk_per_unit = abs(entry - stop)` and zeroed PnL fields). -/
def mkTrade (trade_id symbol mode side : String) (entry stop size : ℚ) :
    Trade :=
  { id := trade_id
    symbol := symbol
    mode := mode
    side := side
    entry := entry
    stop := stop
    size := size
    risk_per_unit := |entry - stop|
    «open» := true
    exit := none
    pnl := 0
    R := 0 }

/-- The in-place mutation performed by `close_trade_by_symbol` on the trade
it finds: `open = False`, `exit = exit_px`,
`pnl = (exit - entry) * size` for longs (reversed for shorts),
`R = pnl / max(1e-9, risk_per_unit * size)`. -/
def closeTradeRecord (tr : Trade) (exit_px : ℚ) : Trade :=
  let pnl :=
    if tr.side = "long" then (exit_px - tr.entry) * tr.size
    else (tr.entry - exit_px) * tr.size
  let denom := max (1 / 1000000000) (tr.risk_per_unit * tr.size)
  { tr with
    «open» := false
    exit := some exit_px
    pnl := pnl
    R := pnl / denom }

/-- Embeds `close_trade_by_symbol` of `main.py`: scan the reversed trades list for
the first trade with this symbol that is still open, close it in place and
return it; return `None` (and leave every record untouched) when no open
trade for the symbol exists.  The recursion gives the suffix priority, which
is exactly the reversed scan of the source. -/
def close_trade_by_symbol (symbol : String) (exit_px : ℚ) :
    List Trade → List Trade × Option Trade
  | [] => ([], none)
  | tr :: rest =>
    let res := close_trade_by_symbol symbol exit_px rest
    match res.2 with
    | some t => (tr :: res.1, some t)
    | none =>
      if tr.symbol = symbol ∧ tr.«open» = true then
        (closeTradeRecord tr exit_px :: rest, some (closeTradeRecord tr exit_px))
      else (tr :: rest, none)

/-- Index (from the front) of the trade `close_trade_by_symbol` would close:
the last list element with this symbol that is still open. -/
def lastOpenIdx (symbol : String) : List Trade → Option ℕ
  | [] => none
  | tr :: rest =>
    match lastOpenIdx symbol rest with
    | some i => some (i + 1)
    | none => if tr.symbol = symbol ∧ tr.«open» = true then some 0 else none

/-! ## Grid legs and the exchange oracle (`main.py`,
`check_and_attach_oco_for_grid`) -/

/-- One entry of the `grid_orders` list of a grid position.  `buyOrdId` is the
string returned by order placement (the empty string when placement yielded no id, the
Python-falsy case the source skips). -/
structure GridLeg where
  buyOrdId : String
  buy : ℚ
  tp : ℚ
  sl : ℚ
  size : ℚ
  ocoPlaced : Bool
  ocoAlgoId : Option String
  filledSz : Option ℚ
  fillPx : Option ℚ
deriving Repr, DecidableEq

/-- The order-detail record `client.order(...)` returns for a buy order:
`state` (`"filled" | "canceled" | "live" | ...`), `accFillSz` (the
float conversion with 0 fallback), and `avgPx` (`none` models a missing
or empty field, for which the source falls back to the buy price of the leg). -/
structure OrdDetail where
  state : String
  accFillSz : ℚ
  avgPx : Option ℚ
deriving Repr, DecidableEq

/-- View of the exchange on one tick, as consumed by the fill-check step:
the pending order ids for the symbol, the order-detail lookup, and the
outcome of `place_algo_oco` for given (size, tp, sl) — `.error` models the
exception branch, `.ok` carries the (possibly missing) `algoId`. -/
structure ExchangeView where
  pendingIds : List String
  orderDetail : String → OrdDetail
  placeOco : ℚ → ℚ → ℚ → Except Unit (Option String)

/-- Body of the per-leg loop of `main.py`, `check_and_attach_oco_for_grid`
(lines 424–458): skip legs already `ocoPlaced`, legs without a buy id, and
legs whose buy order is still pending; otherwise fetch the order detail and
either (filled with positive size) record the fill and try to place the OCO
exit — marking `ocoPlaced` only when the call succeeds — or (any other
state) mark `ocoPlaced` with a null algo id. -/
def processLeg (ex : ExchangeView) (od : GridLeg) : GridLeg :=
  if od.ocoPlaced then od
  else if od.buyOrdId = "" then od
  else if od.buyOrdId ∈ ex.pendingIds then od
  else
    let d := ex.orderDetail od.buyOrdId
    if d.state = "filled" ∧ d.accFillSz > 0 then
      let avg_px := d.avgPx.getD od.buy
      let od1 := { od with filledSz := some d.accFillSz, fillPx := some avg_px }
      match ex.placeOco d.accFillSz od.tp od.sl with
      | .ok algoId => { od1 with ocoPlaced := true, ocoAlgoId := algoId }
      | .error _ => od1
    else
      { od with ocoPlaced := true, ocoAlgoId := none }

/-- Embeds `check_and_attach_oco_for_grid`: over the legs of a grid position: each leg is
processed independently by the loop body against the same exchange view. -/
def check_and_attach_oco_for_grid (ex : ExchangeView) (legs : List GridLeg) :
    List GridLeg :=
  legs.map (processLeg ex)

/-- Iterated fill-check of a single leg over a sequence of ticks, each with
its own exchange view. -/
def processLegTicks (exs : List ExchangeView) (od : GridLeg) : GridLeg :=
  exs.foldl (fun l e => processLeg e l) od

/-! ## Grid cycle completion (`main.py`, `check_symbol` step 5) -/

/-- A grid position, as far as the cycle-completion step reads it. -/
structure GridPos where
  grid_orders : List GridLeg
deriving Repr, DecidableEq

/-- Embeds lines 616–626 of `main.py`: collect the (truthy) buy order ids of the position,
intersect with the pending set of the exchange, and drop the position (`none`)
exactly when no buy order of the ladder is still pending. -/
def gridCycleStep (pos : GridPos) (pendingIds : List String) : Option GridPos :=
  let my_ids := (pos.grid_orders.filter (fun o => o.buyOrdId ≠ "")).map
    (fun o => o.buyOrdId)
  let still_open := pendingIds.filter (fun p => p ∈ my_ids)
  if still_open.isEmpty then none else some pos

/-! ## Trend position management (`main.py`, `check_symbol` step 3) -/

/-- An open trend position, mirroring the dictionary created at entry:
a dictionary with mode, side, entry, stop, size, trail and trade_id keys. -/
structure TrendPos where
  side : String
  entry : ℚ
  stop : ℚ
  size : ℚ
  trail : Option ℚ
  trade_id : String
deriving Repr, DecidableEq

/-- Line 589 of `main.py`:
the trail is replaced by the float of `update_trailing_stop` when the new trail is truthy, and kept otherwise.
A Python float is falsy exactly when it is `0.0`, hence the `v = 0` guard. -/
def trendTrail (pos : TrendPos) (new_trail : Option ℚ) : Option ℚ :=
  match new_trail with
  | none => pos.trail
  | some v =>
    if v = 0 then pos.trail
    else update_trailing_stop pos.trail (some v) pos.side

/-- Embeds lines 586–595 of `main.py` for an open trend position: ratchet the trail,
then, for a long, close at the current price when
`last <= max(trail, stop)` — updating the trade ledger through
`close_trade_by_symbol` and dropping the position — and keep the position
(with its updated trail) otherwise.  Comparing a still-`None` trail raises a
`TypeError` in the source; that path is `.error`. -/
def manage_trend (sym : String) (pos : TrendPos) (new_trail : Option ℚ)
    (last : ℚ) (trades : List Trade) :
    Except Unit (Option TrendPos × List Trade) :=
  let trail1 := trendTrail pos new_trail
  let pos1 := { pos with trail := trail1 }
  if pos1.side = "long" then
    match trail1 with
    | none => .error ()
    | some t =>
      if last ≤ max t pos1.stop then
        .ok (none, (close_trade_by_symbol sym last trades).1)
      else .ok (some pos1, trades)
  else .ok (some pos1, trades)

/-! ## Durable state (`storage.py`) -/

/-- The top-level durable record, key by key.  A field is `none` when the
corresponding dictionary key is absent (indexing it raises `KeyError`).
The value types are as coarse as the claims need. -/
structure StoredState where
  open_positions : Option (List (String × String))
  alerts : Option (List (String × List ℚ))
  config : Option (List (String × Bool))
  trades : Option (List Trade)
deriving Repr, DecidableEq

/-- Embeds `DEFAULT_STATE` of `storage.py`: a literal with exactly the keys
`open_positions`, `alerts`, `config` — and no `trades` key. -/
def DEFAULT_STATE : StoredState :=
  { open_positions := some []
    alerts := some []
    config := some []
    trades := none }

/-- Embeds `load_state` of `storage.py`: the parsed file contents when it exists,
`DEFAULT_STATE.copy()` otherwise. -/
def load_state (fileExists : Bool) (fileContents : StoredState) : StoredState :=
  if fileExists then fileContents else DEFAULT_STATE

/-- Embeds `log_new_trade` of `main.py`, restricted to its effect on the state:
the append on the trades key.  Indexing a state without a `trades` key is
a `KeyError`, modelled as `.error`. -/
def log_new_trade (st : StoredState) (trade_id symbol mode side : String)
    (entry stop size : ℚ) : Except String StoredState :=
  match st.trades with
  | none => .error "KeyError: trades"
  | some ts =>
    .ok { st with trades := some (ts ++ [mkTrade trade_id symbol mode side entry stop size]) }

/-! ## Helper lemmas -/

lemma update_long_step (c : ℚ) (n : Option ℚ) :
    ∃ r : ℚ, update_trailing_stop (some c) n "long" = some r ∧ c ≤ r := by
  cases n with
  | none => exact ⟨c, rfl, le_refl c⟩
  | some v =>
    refine ⟨max c v, ?_, le_max_left c v⟩
    simp [update_trailing_stop]

lemma update_long_fold (news : List (Option ℚ)) :
    ∀ c : ℚ, ∃ v : ℚ,
      List.foldl (fun t n => update_trailing_stop t n "long") (some c) news
        = some v ∧ c ≤ v := by
  induction news with
  | nil => exact fun c => ⟨c, rfl, le_refl c⟩
  | cons n ns ih =>
    intro c
    obtain ⟨r, hr, hcr⟩ := update_long_step c n
    obtain ⟨v, hv, hrv⟩ := ih r
    refine ⟨v, ?_, le_trans hcr hrv⟩
    rw [List.foldl_cons, hr]
    exact hv

/-! ## C1 -/

/-- C1 (counterexample): the claim "`position_size_spot` returns 0 whenever
equity or riskFraction is negative" fails when both are negative: the
product `equity * risk_per_trade` is then positive, survives the
`max(…, 0)` clamp, and a strictly positive size is returned.  At
`equity = -1, entry = 1, stop = 0, riskFraction = -1` the source returns 1,
not 0. -/
theorem position_size_spot_neg_counterexample :
    position_size_spot (-1) 1 0 (-1) = 1 ∧ (1 : ℚ) ≠ 0 := by
  constructor
  · norm_num [position_size_spot]
  · norm_num

/-- C1 (amended): `position_size_spot(equity, entry, stop, r)` equals
`equity·r/|entry−stop|` for `equity ≥ 0`, `r ∈ [0,1]`, `entry ≠ stop`;
returns 0 when `entry = stop`; and returns 0 whenever the product
`equity·r` is negative (in particular when exactly one of equity, r is
negative — when both are negative the product is positive and the quotient
is returned instead). -/
theorem position_size_spot_correct (equity entry stop r : ℚ) :
    (0 ≤ equity → 0 ≤ r → r ≤ 1 → entry ≠ stop →
      position_size_spot equity entry stop r = equity * r / |entry - stop|) ∧
    (entry = stop → position_size_spot equity entry stop r = 0) ∧
    (equity * r < 0 → position_size_spot equity entry stop r = 0) := by
  refine ⟨?_, ?_, ?_⟩
  · intro he hr _ hne
    have hd : 0 < |entry - stop| := abs_pos.mpr (sub_ne_zero.mpr hne)
    simp only [position_size_spot]
    rw [if_neg (not_le.mpr hd), max_eq_left (mul_nonneg he hr),
      max_eq_right (div_nonneg (mul_nonneg he hr) hd.le)]
  · intro h
    simp only [position_size_spot, h, sub_self, abs_zero]
    rw [if_pos le_rfl]
  · intro h
    simp only [position_size_spot]
    split_ifs with hd
    · rfl
    · rw [max_eq_right h.le, zero_div, max_self]

/-- C1 witness: the size scenario of the spec (`equity=10000, r=0.01, entry=100,
stop=98 → size=50`), plus the `entry = stop` and single-negative-input
cases. -/
theorem position_size_spot_correct_witness :
    position_size_spot 10000 100 98 (1/100) = 50 ∧
    position_size_spot 10000 100 100 (1/100) = 0 ∧
    position_size_spot (-5) 100 98 (1/100) = 0 := by
  refine ⟨?_, ?_, ?_⟩
  · have h := (position_size_spot_correct 10000 100 98 (1/100)).1
      (by norm_num) (by norm_num) (by norm_num) (by norm_num)
    rw [h]; norm_num
  · exact (position_size_spot_correct 10000 100 100 (1/100)).2.1 rfl
  · exact (position_size_spot_correct (-5) 100 98 (1/100)).2.2 (by norm_num)

/-! ## C4 -/

/-- C4: for side `"long"` the trailing stop is a monotone ratchet — a single
update from a present current trail never returns less than the current
trail, and over any sequence of updates (each `newTrail` present or absent)
the long trail never decreases below its starting value. -/
theorem update_trailing_stop_long_monotone (c : ℚ) (news : List (Option ℚ)) :
    (∀ n : Option ℚ, ∃ r : ℚ,
      update_trailing_stop (some c) n "long" = some r ∧ c ≤ r) ∧
    ∃ v : ℚ,
      List.foldl (fun t n => update_trailing_stop t n "long") (some c) news
        = some v ∧ c ≤ v :=
  ⟨fun n => update_long_step c n, update_long_fold news c⟩

/-! ## C10 -/

/-- C10: for every side, a `None` new trail leaves the current trail in
place, and a `None` current trail adopts the new trail as-is. -/
theorem update_trailing_stop_none_id (c : Option ℚ) (n : ℚ) (side : String) :
    update_trailing_stop c none side = c ∧
    update_trailing_stop none (some n) side = some n :=
  ⟨rfl, rfl⟩

/-! ## C7 -/

/-- C7 (counterexample): the claim says the forced mode wins "for every
indicator-annotated candle frame (including an empty one)", but
`detect_regime` tests `df.empty` before the mode override, so an empty
frame yields `"trend"` even when the configuration forces `"grid"`. -/
theorem detect_regime_empty_counterexample :
    detect_regime none { mode := "grid", adx_trend := 22, bb_width_max := 6/100 }
      = "trend" ∧ ("trend" : String) ≠ "grid" := by
  exact ⟨rfl, by decide⟩

/-- C7 (amended): an empty frame always yields `"trend"`, regardless of the
configured mode (the empty-frame check precedes the override); on a
nonempty frame the forced mode (`"trend"`/`"grid"`) takes precedence, and
in auto mode the classification is: `"trend"` if ADX ≥ threshold and
close > slow MA, else `"grid"` if the Bollinger width ratio ≤ threshold and
ADX < threshold, else `"trend"`. -/
theorem detect_regime_correct (l : IndLast) (cfg : StrategyConfig) :
    (detect_regime none cfg = "trend") ∧
    (cfg.mode = "trend" ∨ cfg.mode = "grid" →
      detect_regime (some l) cfg = cfg.mode) ∧
    (¬(cfg.mode = "trend" ∨ cfg.mode = "grid") →
      (l.adx ≥ cfg.adx_trend ∧ l.close > l.ema_slow →
        detect_regime (some l) cfg = "trend") ∧
      (¬(l.adx ≥ cfg.adx_trend ∧ l.close > l.ema_slow) →
        l.bb_width ≤ cfg.bb_width_max ∧ l.adx < cfg.adx_trend →
        detect_regime (some l) cfg = "grid") ∧
      (¬(l.adx ≥ cfg.adx_trend ∧ l.close > l.ema_slow) →
        ¬(l.bb_width ≤ cfg.bb_width_max ∧ l.adx < cfg.adx_trend) →
        detect_regime (some l) cfg = "trend")) := by
  refine ⟨rfl, ?_, ?_⟩
  · intro h
    simp only [detect_regime]
    rw [if_pos h]
  · intro hmode
    refine ⟨?_, ?_, ?_⟩
    · intro h1
      simp only [detect_regime]
      rw [if_neg hmode, if_pos h1]
    · intro h1 h2
      simp only [detect_regime]
      rw [if_neg hmode, if_neg h1, if_pos h2]
    · intro h1 h2
      simp only [detect_regime]
      rw [if_neg hmode, if_neg h1, if_neg h2]

/-- C7 witness: a forced-`"grid"` configuration on a nonempty frame returns
`"grid"`; an auto configuration with weak ADX and narrow bands returns
`"grid"`; an auto configuration with strong ADX above the slow MA returns
`"trend"`. -/
theorem detect_regime_correct_witness :
    detect_regime (some ⟨25, 101, 100, 1/100⟩)
      { mode := "grid", adx_trend := 22, bb_width_max := 6/100 } = "grid" ∧
    detect_regime (some ⟨10, 100, 101, 1/100⟩)
      { mode := "auto", adx_trend := 22, bb_width_max := 6/100 } = "grid" ∧
    detect_regime (some ⟨25, 101, 100, 1/100⟩)
      { mode := "auto", adx_trend := 22, bb_width_max := 6/100 } = "trend" := by
  refine ⟨?_, ?_, ?_⟩
  · exact (detect_regime_correct ⟨25, 101, 100, 1/100⟩
      { mode := "grid", adx_trend := 22, bb_width_max := 6/100 }).2.1
      (Or.inr rfl)
  · exact ((detect_regime_correct ⟨10, 100, 101, 1/100⟩
      { mode := "auto", adx_trend := 22, bb_width_max := 6/100 }).2.2
      (by decide)).2.1 (by norm_num) (by norm_num)
  · exact ((detect_regime_correct ⟨25, 101, 100, 1/100⟩
      { mode := "auto", adx_trend := 22, bb_width_max := 6/100 }).2.2
      (by decide)).1 (by norm_num)

/-! ## C8 -/

/-- C8 (code bug): on a fresh start (`state.json` absent) `load_state`
returns `DEFAULT_STATE`, which holds only `open_positions`, `alerts` and
`config` — the `trades` key of the durable record is missing, so the very
first `log_new_trade` (the append on the trades key) raises `KeyError`.
The durable record of the spec (and `log_new_trade` itself, plus
`send_daily_pnl`, which also reads `state[“trades”]`) requires the key; the
missing trades entry in `DEFAULT_STATE` is a slip in the code. -/
theorem load_state_missing_trades_bug :
    (load_state false DEFAULT_STATE).trades = none ∧
    log_new_trade (load_state false DEFAULT_STATE)
      "t1" "ETH-USDT" "trend" "long" 100 95 1 = .error "KeyError: trades" ∧
    DEFAULT_STATE.open_positions = some [] ∧
    DEFAULT_STATE.alerts = some [] ∧
    DEFAULT_STATE.config = some [] :=
  ⟨rfl, rfl, rfl, rfl, rfl⟩

/-! ## C2 -/

/-- C2: for a leg not yet attached whose buy id is absent from the pending
set, the fill-check loop body has exactly three outcomes — (1) reported
filled with positive size and OCO placement succeeds: the leg records the
exact filled size and average fill price and becomes attached with the
returned algo id; (2) reported canceled/non-filled: attached with a null
algo id; (3) OCO placement raises: left unattached (retried next tick),
with the fill info already recorded.  Moreover a leg whose buy order is
still pending is untouched, and the step maps each leg of the position
independently, so legs other than the one being processed are unchanged. -/
theorem processLeg_fill_outcomes (ex : ExchangeView) (od : GridLeg)
    (hoco : od.ocoPlaced = false) (hid : od.buyOrdId ≠ "")
    (hpend : od.buyOrdId ∉ ex.pendingIds) :
    ((ex.orderDetail od.buyOrdId).state = "filled" →
      0 < (ex.orderDetail od.buyOrdId).accFillSz →
      ∀ aid, ex.placeOco (ex.orderDetail od.buyOrdId).accFillSz od.tp od.sl
          = .ok aid →
      processLeg ex od =
        { od with
          filledSz := some (ex.orderDetail od.buyOrdId).accFillSz
          fillPx := some ((ex.orderDetail od.buyOrdId).avgPx.getD od.buy)
          ocoPlaced := true
          ocoAlgoId := aid }) ∧
    (¬((ex.orderDetail od.buyOrdId).state = "filled" ∧
        0 < (ex.orderDetail od.buyOrdId).accFillSz) →
      processLeg ex od = { od with ocoPlaced := true, ocoAlgoId := none }) ∧
    ((ex.orderDetail od.buyOrdId).state = "filled" →
      0 < (ex.orderDetail od.buyOrdId).accFillSz →
      ∀ e, ex.placeOco (ex.orderDetail od.buyOrdId).accFillSz od.tp od.sl
          = .error e →
      (processLeg ex od).ocoPlaced = false ∧
      processLeg ex od =
        { od with
          filledSz := some (ex.orderDetail od.buyOrdId).accFillSz
          fillPx := some ((ex.orderDetail od.buyOrdId).avgPx.getD od.buy) }) ∧
    (∀ od' : GridLeg, od'.buyOrdId ∈ ex.pendingIds → od'.ocoPlaced = false →
      processLeg ex od' = od') ∧
    (∀ legs : List GridLeg,
      check_and_attach_oco_for_grid ex legs = legs.map (processLeg ex)) := by
  refine ⟨?_, ?_, ?_, ?_, fun _ => rfl⟩
  · intro h1 h2 aid h3
    simp [processLeg, hoco, hid, hpend, h1, h2, h3]
  · intro h
    simp [processLeg, hoco, hid, hpend, h]
  · intro h1 h2 e h3
    have hres : processLeg ex od =
        { od with
          filledSz := some (ex.orderDetail od.buyOrdId).accFillSz
          fillPx := some ((ex.orderDetail od.buyOrdId).avgPx.getD od.buy) } := by
      simp [processLeg, hoco, hid, hpend, h1, h2, h3]
    refine ⟨?_, hres⟩
    rw [hres]
    exact hoco
  · intro od' hmem hoco'
    simp [processLeg, hoco', hmem]

/-- Concrete exchange view reproducing the scenario of the spec: the processed
buy order of the leg is gone from pending and reported `filled` with
`accFillSz = 1.5`, `avgPx = 99.8`; OCO placement succeeds with id `A1`. -/
def exFilled : ExchangeView :=
  { pendingIds := ["b2", "b3"]
    orderDetail := fun _ => { state := "filled", accFillSz := 3/2, avgPx := some (499/5) }
    placeOco := fun _ _ _ => .ok (some "A1") }

/-- Leg 0 of the scenario: resting buy `b1`, not yet attached. -/
def legSample : GridLeg :=
  { buyOrdId := "b1", buy := 100, tp := 102, sl := 99, size := 3/2
    ocoPlaced := false, ocoAlgoId := none, filledSz := none, fillPx := none }

/-- A leg already attached (for the idempotence claims). -/
def legAttached : GridLeg :=
  { buyOrdId := "b2", buy := 98, tp := 101, sl := 97, size := 1
    ocoPlaced := true, ocoAlgoId := some "A0", filledSz := some 1, fillPx := some 98 }

/-- C2 witness: the spec scenario — leg 0 becomes attached with the exact
fill size 1.5 and fill price 99.8 and algo id `A1`, while a leg whose buy
order is still pending is unchanged. -/
theorem processLeg_fill_outcomes_witness :
    processLeg exFilled legSample =
      { legSample with
        filledSz := some (3/2)
        fillPx := some (499/5)
        ocoPlaced := true
        ocoAlgoId := some "A1" } ∧
    processLeg exFilled { legSample with buyOrdId := "b2" } =
      { legSample with buyOrdId := "b2" } := by
  have h := processLeg_fill_outcomes exFilled legSample rfl
    (by decide) (by decide)
  constructor
  · exact h.1 rfl (show (0 : ℚ) < 3/2 by norm_num) (some "A1") rfl
  · exact h.2.2.2.1 { legSample with buyOrdId := "b2" } (by decide) rfl

/-! ## C3 -/

/-- C3: a leg whose `ocoPlaced` flag is already set is a fixed point of the
fill-check step for every exchange view — the result does not depend on the
pending set, the order-detail lookup or the OCO endpoint, so no exchange
call can influence it — and it stays a fixed point over any sequence of
ticks, so the flag flips from false to true at most once in the
lifetime of a leg. -/
theorem processLeg_attached_noop (od : GridLeg) (hoco : od.ocoPlaced = true) :
    (∀ ex : ExchangeView, processLeg ex od = od) ∧
    (∀ exs : List ExchangeView, processLegTicks exs od = od) ∧
    (∀ ex : ExchangeView, (processLeg ex od).ocoPlaced = true) := by
  have h1 : ∀ ex : ExchangeView, processLeg ex od = od := by
    intro ex
    simp [processLeg, hoco]
  refine ⟨h1, ?_, fun ex => by rw [h1 ex]; exact hoco⟩
  intro exs
  induction exs with
  | nil => rfl
  | cons e es ih =>
    show List.foldl _ _ (e :: es) = od
    rw [List.foldl_cons, h1 e]
    exact ih

/-- C3 witness: the already-attached sample leg is untouched by a tick of
the scenario exchange, and by two consecutive ticks. -/
theorem processLeg_attached_noop_witness :
    processLeg exFilled legAttached = legAttached ∧
    processLegTicks [exFilled, exFilled] legAttached = legAttached := by
  have h := processLeg_attached_noop legAttached rfl
  exact ⟨h.1 exFilled, h.2.1 [exFilled, exFilled]⟩

/-! ## C6 -/

/-- C6: when none of the (non-empty) buy order ids of a grid position remains in
the pending set of the exchange — in particular after every leg has been through
the fill-check step — the cycle-completion step removes the position
(`none`), so a fresh plan can be computed on a later tick; while any buy
order of the ladder is still pending, the position is kept unchanged. -/
theorem gridCycleStep_complete (pos : GridPos) (pendingIds : List String) :
    ((∀ od ∈ pos.grid_orders, od.ocoPlaced = true) →
      (∀ od ∈ pos.grid_orders, od.buyOrdId ≠ "" → od.buyOrdId ∉ pendingIds) →
      gridCycleStep pos pendingIds = none) ∧
    (∀ od ∈ pos.grid_orders, od.buyOrdId ≠ "" → od.buyOrdId ∈ pendingIds →
      gridCycleStep pos pendingIds = some pos) := by
  constructor
  · intro _ habsent
    have hfil : pendingIds.filter
        (fun p => p ∈ (pos.grid_orders.filter
          (fun o => o.buyOrdId ≠ "")).map (fun o => o.buyOrdId)) = [] := by
      rw [List.filter_eq_nil_iff]
      intro p hp hmem
      rw [decide_eq_true_iff] at hmem
      obtain ⟨o, ho, heq⟩ := List.mem_map.mp hmem
      obtain ⟨ho', hne⟩ := List.mem_filter.mp ho
      rw [decide_eq_true_iff] at hne
      exact habsent o ho' hne (heq ▸ hp)
    simp [gridCycleStep, hfil]
  · intro od hod hne hpend
    have hmy : od.buyOrdId ∈ (pos.grid_orders.filter
        (fun o => o.buyOrdId ≠ "")).map (fun o => o.buyOrdId) :=
      List.mem_map.mpr ⟨od, List.mem_filter.mpr ⟨hod, decide_eq_true hne⟩, rfl⟩
    have hfil : od.buyOrdId ∈ pendingIds.filter
        (fun p => p ∈ (pos.grid_orders.filter
          (fun o => o.buyOrdId ≠ "")).map (fun o => o.buyOrdId)) :=
      List.mem_filter.mpr ⟨hpend, decide_eq_true hmy⟩
    have hne' : ¬ (pendingIds.filter
        (fun p => p ∈ (pos.grid_orders.filter
          (fun o => o.buyOrdId ≠ "")).map (fun o => o.buyOrdId))).isEmpty := by
      rw [List.isEmpty_iff]
      exact List.ne_nil_of_mem hfil
    simp only [gridCycleStep]
    rw [if_neg hne']

/-- C6 witness: a two-leg ladder whose buy ids are both gone from pending
(and both legs fill-checked) is removed; with leg `b2` still pending the
position is kept. -/
theorem gridCycleStep_complete_witness :
    gridCycleStep { grid_orders := [legAttached, { legAttached with buyOrdId := "b9" }] }
      ["x1", "x2"] = none ∧
    gridCycleStep { grid_orders := [legAttached] } ["b2", "x2"] =
      some { grid_orders := [legAttached] } := by
  constructor
  · exact (gridCycleStep_complete
      { grid_orders := [legAttached, { legAttached with buyOrdId := "b9" }] }
      ["x1", "x2"]).1 (by decide) (by decide)
  · exact (gridCycleStep_complete { grid_orders := [legAttached] }
      ["b2", "x2"]).2 legAttached (by decide) (by decide) (by decide)

/-! ## C5 -/

/-- A sample open trade for the trend scenario (entry 100, stop 95,
size 1). -/
def tradeSample : Trade :=
  mkTrade "t1" "ETH-USDT" "trend" "long" 100 95 1

/-- The trend position of the scenario of the spec: long, entry 100, stop 95,
current trail 98. -/
def trendPosSample : TrendPos :=
  { side := "long", entry := 100, stop := 95, size := 1
    trail := some 98, trade_id := "t1" }

/-- C5 (counterexample): the claim says the engine "appends the closed
trade to the Trade Ledger", but `close_trade_by_symbol` mutates the
matching open trade in place — after the scenario stop-out (trail 98,
price 97) the ledger still holds exactly one record (the append of the claim
would leave two), now closed with its PnL and R computed. -/
theorem manage_trend_no_append_counterexample :
    manage_trend "ETH-USDT" trendPosSample (some 96) 97 [tradeSample] =
      .ok (none, [closeTradeRecord tradeSample 97]) ∧
    [closeTradeRecord tradeSample 97].length = [tradeSample].length ∧
    ¬ ([closeTradeRecord tradeSample 97].length = [tradeSample].length + 1) := by
  refine ⟨?_, rfl, by norm_num⟩
  rfl

/-- C5 (amended): for an open long trend position with a present trail
value `t` (after the ratchet step), the engine closes exactly when the
current price is at or below `max(t, initial stop)`: it then drops the
position and updates the Trade Ledger through `close_trade_by_symbol`
(closing the matching open trade in place with realized PnL and R — no new
ledger entry is appended); when the price is strictly above
`max(t, initial stop)`, the position stays open (with its ratcheted
trail). -/
theorem manage_trend_stopout (sym : String) (pos : TrendPos)
    (new_trail : Option ℚ) (last : ℚ) (trades : List Trade) (t : ℚ)
    (hside : pos.side = "long") (ht : trendTrail pos new_trail = some t) :
    (last ≤ max t pos.stop →
      manage_trend sym pos new_trail last trades =
        .ok (none, (close_trade_by_symbol sym last trades).1)) ∧
    (max t pos.stop < last →
      manage_trend sym pos new_trail last trades =
        .ok (some { pos with trail := some t }, trades)) := by
  constructor
  · intro h
    simp [manage_trend, ht, hside, h]
  · intro h
    simp [manage_trend, ht, hside, not_le.mpr h]

/-- C5 witness: the scenario of the spec — entry 100, stop 95, trail 98, new
ATR trail 96 (ratchet keeps 98); at price 97 the position is closed against
the ledger, at price 99 it stays open with trail 98. -/
theorem manage_trend_stopout_witness :
    manage_trend "ETH-USDT" trendPosSample (some 96) 97 [tradeSample] =
      .ok (none, (close_trade_by_symbol "ETH-USDT" 97 [tradeSample]).1) ∧
    manage_trend "ETH-USDT" trendPosSample (some 96) 99 [tradeSample] =
      .ok (some { trendPosSample with trail := some 98 }, [tradeSample]) := by
  constructor
  · exact (manage_trend_stopout "ETH-USDT" trendPosSample (some 96) 97
      [tradeSample] 98 rfl rfl).1 (by norm_num)
  · exact (manage_trend_stopout "ETH-USDT" trendPosSample (some 96) 99
      [tradeSample] 98 rfl rfl).2 (by norm_num [trendPosSample])

/-! ## C9 -/

lemma lastOpenIdx_none_iff (s : String) (l : List Trade) :
    lastOpenIdx s l = none ↔
      ∀ tr ∈ l, ¬(tr.symbol = s ∧ tr.«open» = true) := by
  induction l with
  | nil => simp [lastOpenIdx]
  | cons tr rest ih =>
    simp only [lastOpenIdx]
    cases hL : lastOpenIdx s rest with
    | some k =>
      simp only []
      constructor
      · intro h; cases h
      · intro h
        have : lastOpenIdx s rest = none :=
          ih.mpr fun tr' htr' => h tr' (List.mem_cons_of_mem _ htr')
        rw [hL] at this; cases this
    | none =>
      have hrest := ih.mp hL
      by_cases hc : tr.symbol = s ∧ tr.«open» = true
      · rw [if_pos hc]
        constructor
        · intro h; cases h
        · intro h; exact absurd hc (h tr (List.mem_cons_self _ _))
      · rw [if_neg hc]
        constructor
        · intro _ tr' htr'
          rcases List.mem_cons.mp htr' with h1 | h2
          · rw [h1]; exact hc
          · exact hrest tr' h2
        · intro _; rfl

lemma lastOpenIdx_some_spec (s : String) :
    ∀ (l : List Trade) (i : ℕ), lastOpenIdx s l = some i →
    ∃ tr, l[i]? = some tr ∧ tr.symbol = s ∧ tr.«open» = true ∧
      ∀ j, i < j → ∀ tr', l[j]? = some tr' →
        ¬(tr'.symbol = s ∧ tr'.«open» = true) := by
  intro l
  induction l with
  | nil => intro i h; cases h
  | cons tr rest ih =>
    intro i h
    simp only [lastOpenIdx] at h
    cases hL : lastOpenIdx s rest with
    | some k =>
      rw [hL] at h
      injection h with h'
      subst h'
      obtain ⟨tr0, h0, hs0, ho0, hmax⟩ := ih k hL
      refine ⟨tr0, ?_, hs0, ho0, ?_⟩
      · rw [List.getElem?_cons_succ]; exact h0
      · intro j hj tr' htr'
        cases j with
        | zero => omega
        | succ j' =>
          rw [List.getElem?_cons_succ] at htr'
          exact hmax j' (by omega) tr' htr'
    | none =>
      rw [hL] at h
      by_cases hc : tr.symbol = s ∧ tr.«open» = true
      · rw [if_pos hc] at h
        injection h with h'
        subst h'
        refine ⟨tr, List.getElem?_cons_zero, hc.1, hc.2, ?_⟩
        intro j hj tr' htr'
        cases j with
        | zero => omega
        | succ j' =>
          rw [List.getElem?_cons_succ] at htr'
          exact (lastOpenIdx_none_iff s rest).mp hL tr' (List.getElem?_mem htr')
      · rw [if_neg hc] at h
        cases h

lemma close_trade_spec (s : String) (px : ℚ) :
    ∀ l : List Trade,
    (lastOpenIdx s l = none → close_trade_by_symbol s px l = (l, none)) ∧
    (∀ i tr, lastOpenIdx s l = some i → l[i]? = some tr →
      close_trade_by_symbol s px l =
        (l.set i (closeTradeRecord tr px), some (closeTradeRecord tr px))) := by
  intro l
  induction l with
  | nil =>
    exact ⟨fun _ => rfl, fun i tr h => by cases h⟩
  | cons hd rest ih =>
    constructor
    · intro h
      simp only [lastOpenIdx] at h
      cases hL : lastOpenIdx s rest with
      | some k => rw [hL] at h; cases h
      | none =>
        rw [hL] at h
        by_cases hc : hd.symbol = s ∧ hd.«open» = true
        · rw [if_pos hc] at h; cases h
        · have hrest : close_trade_by_symbol s px rest = (rest, none) := ih.1 hL
          simp only [close_trade_by_symbol, hrest]
          rw [if_neg hc]
    · intro i tr h htr
      simp only [lastOpenIdx] at h
      cases hL : lastOpenIdx s rest with
      | some k =>
        rw [hL] at h
        injection h with h'
        subst h'
        rw [List.getElem?_cons_succ] at htr
        have hrest := ih.2 k tr hL htr
        simp only [close_trade_by_symbol, hrest]
        rfl
      | none =>
        rw [hL] at h
        by_cases hc : hd.symbol = s ∧ hd.«open» = true
        · rw [if_pos hc] at h
          injection h with h'
          subst h'
          rw [List.getElem?_cons_zero] at htr
          injection htr with htr'
          subst htr'
          have hrest : close_trade_by_symbol s px rest = (rest, none) := ih.1 hL
          simp only [close_trade_by_symbol, hrest]
          rw [if_pos hc]
          rfl
        · rw [if_neg hc] at h
          cases h

/-- C9: `close_trade_by_symbol` closes a trade exactly once — (a) when no
open trade for the symbol exists, the ledger is returned untouched and
`none` is returned; (b) otherwise exactly the most recent (last) open trade
for the symbol is replaced by its closed version (`open=false`, exit price
recorded, `pnl` and `R = pnl / max(1e-9, risk_per_unit * size)` computed by
`closeTradeRecord`), every trade after it being non-open for the symbol and
every other index left unchanged (`List.set` touches only index `i`), so a
trade already closed is never recomputed; (c) `lastOpenIdx` is `none`
exactly when no open trade for the symbol exists. -/
theorem close_trade_by_symbol_correct (s : String) (px : ℚ)
    (trades : List Trade) :
    ((∀ tr ∈ trades, ¬(tr.symbol = s ∧ tr.«open» = true)) →
      close_trade_by_symbol s px trades = (trades, none)) ∧
    (∀ i tr, lastOpenIdx s trades = some i → trades[i]? = some tr →
      tr.symbol = s ∧ tr.«open» = true ∧
      (∀ j, i < j → ∀ tr', trades[j]? = some tr' →
        ¬(tr'.symbol = s ∧ tr'.«open» = true)) ∧
      close_trade_by_symbol s px trades =
        (trades.set i (closeTradeRecord tr px),
          some (closeTradeRecord tr px))) ∧
    (lastOpenIdx s trades = none ↔
      ∀ tr ∈ trades, ¬(tr.symbol = s ∧ tr.«open» = true)) := by
  refine ⟨?_, ?_, lastOpenIdx_none_iff s trades⟩
  · intro h
    exact (close_trade_spec s px trades).1 ((lastOpenIdx_none_iff s trades).mpr h)
  · intro i tr hL htr
    obtain ⟨tr0, h0, hs0, ho0, hmax⟩ := lastOpenIdx_some_spec s trades i hL
    have heq : tr0 = tr := by
      rw [h0] at htr
      injection htr
    subst heq
    exact ⟨hs0, ho0, hmax, (close_trade_spec s px trades).2 i tr0 hL h0⟩

/-- C9 witness: a ledger holding one closed and one open trade for
`ETH-USDT` — closing replaces only the open one with its closed version;
on a ledger whose only trade is already closed, closing changes nothing and
returns `none`. -/
theorem close_trade_by_symbol_correct_witness :
    close_trade_by_symbol "ETH-USDT" 97
        [closeTradeRecord tradeSample 90, tradeSample] =
      ([closeTradeRecord tradeSample 90, closeTradeRecord tradeSample 97],
        some (closeTradeRecord tradeSample 97)) ∧
    close_trade_by_symbol "ETH-USDT" 97 [closeTradeRecord tradeSample 90] =
      ([closeTradeRecord tradeSample 90], none) := by
  constructor
  · exact ((close_trade_by_symbol_correct "ETH-USDT" 97
      [closeTradeRecord tradeSample 90, tradeSample]).2.1 1 tradeSample
      rfl rfl).2.2.2
  · refine (close_trade_by_symbol_correct "ETH-USDT" 97
      [closeTradeRecord tradeSample 90]).1 ?_
    intro tr htr
    rw [List.mem_singleton] at htr
    subst htr
    simp [closeTradeRecord]
